import Mathlib

/-!
Verification of the WebSocket server core of `hub/modules/network/wsserver.h`
(class `Hub::Network::WebSocketServer`, RFC 6455): the frame codec, the
SHA-1/Base64 handshake key derivation, the client registry operations and the
connection receive loop.

Modelling conventions:
* bytes are `Nat` values (always `< 256` when produced by the code); byte
  sequences are `List Nat`; machine arithmetic wraps explicitly with
  `% 4294967296` (`uint32_t`) where the C++ does;
* a socket read with `MSG_WAITALL` is `takeExact`: it yields exactly `n`
  bytes of the incoming stream or fails;
* winsock calls whose success depends on the peer (`::send`) are modelled by
  a boolean oracle parameter;
* `std::mutex` is not recursive: acquiring `clientsMutex_` while the same
  thread already holds it is modelled as a `LockErr.deadlock` outcome.
-/

namespace Hub.Network

/-- Big-endian byte emission: `k` bytes of `n`, as produced by the loop
`for (int i = k-1; i >= 0; --i) push((n >> (i*8)) & 0xFF)` in `sendFrame`
(64-bit length tier, wsserver.h:540-542) and in the SHA-1 length padding
(wsserver.h:373-375). -/
def beBytes (n : Nat) : Nat → List Nat
  | 0 => []
  | k + 1 => ((n >>> (8 * k)) &&& 255) :: beBytes n k

/-- Big-endian accumulation as in `readFrame`: `len = (len << 8) | b`
folded over the extension bytes (wsserver.h:474, 480-483). -/
def beVal (bs : List Nat) : Nat :=
  bs.foldl (fun acc b => (acc <<< 8) ||| b) 0

/-- `recv(sock, buf, n, MSG_WAITALL)`: exactly `n` bytes of the stream, or
failure when the stream ends first. -/
def takeExact (n : Nat) (l : List Nat) : Option (List Nat × List Nat) :=
  if n ≤ l.length then some (l.take n, l.drop n) else none

/-- XOR (un)masking from position `i`: `data[i] ^= mask[i % 4]`
(wsserver.h:504-508). -/
def maskWith (key : List Nat) (i : Nat) : List Nat → List Nat
  | [] => []
  | b :: bs => (b ^^^ key.getD (i % 4) 0) :: maskWith key (i + 1) bs

/-- The payload-length field written by `sendFrame` (wsserver.h:531-543):
the 7-bit form for `n <= 125`, byte `126` plus 2 big-endian bytes for
`n <= 65535`, byte `127` plus 8 big-endian bytes otherwise. -/
def lenField (n : Nat) : List Nat :=
  if n ≤ 125 then [n]
  else if n ≤ 65535 then [126, (n >>> 8) &&& 255, n &&& 255]
  else 127 :: beBytes n 8

/-- The frame bytes built by `sendFrame` (wsserver.h:526-546): byte 0 is
`0x80 | opcode` (FIN always set), then the unmasked tiered length, then the
raw payload. -/
def encodeFrame (op : Nat) (data : List Nat) : List Nat :=
  (128 ||| op) :: lenField data.length ++ data

/-- Modelled from the spec: the client-side frame encoder exercised by the
round-trip property of spec section 8 (the repository's own client module
delegates framing to WinHTTP, so this encoder is not in the source): same
layout as `encodeFrame` but with the MASK bit (bit 7 of byte 2) set, the
4-byte masking key appended after the length field, and every payload byte
XORed with `key[i % 4]`. -/
def encodeFrameMasked (op : Nat) (data : List Nat) (key : List Nat) : List Nat :=
  let lf :=
    if data.length ≤ 125 then [128 ||| data.length]
    else if data.length ≤ 65535 then
      [128 ||| 126, (data.length >>> 8) &&& 255, data.length &&& 255]
    else (128 ||| 127) :: beBytes data.length 8
  (128 ||| op) :: lf ++ key ++ maskWith key 0 data

/-- The decoded frame handed to the rest of the server: `WSMessage` without
the client id, which `clientLoop` fills in afterwards (wsserver.h:59-65,
280). The opcode is kept as its numeric value: the C++ stores
`header[0] & 0x0F` cast to `WSOpcode` (wsserver.h:464), which preserves the
low nibble. -/
structure WSMsg where
  opcode : Nat
  data : List Nat
deriving Repr, DecidableEq

/-- Extended payload length of `readFrame` (wsserver.h:468-484): base `126`
reads 2 more big-endian bytes, base `127` reads 8, anything else is the
length itself. -/
def readLen (base : Nat) (rest : List Nat) : Option (Nat × List Nat) :=
  if base = 126 then
    match takeExact 2 rest with
    | none => none
    | some (ext, r) => some (beVal ext, r)
  else if base = 127 then
    match takeExact 8 rest with
    | none => none
    | some (ext, r) => some (beVal ext, r)
  else some (base, rest)

/-- Masking key of `readFrame` (wsserver.h:486-492): 4 bytes when MASK is
set, else the zero-initialised `mask[4] = {0}`. -/
def readKey (masked : Bool) (rest : List Nat) : Option (List Nat × List Nat) :=
  if masked then takeExact 4 rest else some ([0, 0, 0, 0], rest)

/-- `readFrame` (wsserver.h:457-513) over the connection's byte stream:
2 header bytes (FIN is read and discarded, wsserver.h:511), opcode = low
nibble of byte 0, MASK = bit 7 of byte 1, base length = low 7 bits of
byte 1; then the extended length, the key if masked, and exactly `len`
payload bytes, unmasked by XOR when MASK was set.  Returns the decoded
message and the unread remainder of the stream; `none` models the
`return false` paths (short reads).  The model is faithful for payload
lengths below `2 ^ 31` (the C++ passes `static_cast<int>(payloadLen)` to
`recv`). -/
def readFrame (input : List Nat) : Option (WSMsg × List Nat) :=
  match input with
  | b0 :: b1 :: rest =>
    let masked := (b1 &&& 128) != 0
    match readLen (b1 &&& 127) rest with
    | none => none
    | some (len, r1) =>
      match readKey masked r1 with
      | none => none
      | some (key, r2) =>
        match takeExact len r2 with
        | none => none
        | some (payload, r3) =>
          some (⟨b0 &&& 15, if masked then maskWith key 0 payload else payload⟩, r3)
  | _ => none

/-- 32-bit left rotation: `(x << k) | (x >> (32 - k))` on `uint32_t`
(wsserver.h:386, 407, 410).  For `x < 2 ^ 32` the high part of the
shifted value is cut by the final reduction, exactly as the `uint32_t`
truncation does. -/
def rotl (k x : Nat) : Nat := ((x <<< k) ||| (x >>> (32 - k))) % 4294967296

/-- SHA-1 padding (wsserver.h:363-375): append `0x80`, pad with zeros until
the length is 56 mod 64, then the bit length as 8 big-endian bytes. -/
def sha1Pad (input : List Nat) : List Nat :=
  let m := input ++ [128]
  m ++ List.replicate ((56 + 64 - m.length % 64) % 64) 0 ++ beBytes (8 * input.length) 8

/-- Split the padded message into 64-byte blocks (wsserver.h:378); the fuel
(at most one block per remaining byte) only makes the recursion structural. -/
def toBlocksGo : Nat → List Nat → List (List Nat)
  | 0, _ => []
  | _, [] => []
  | fuel + 1, a :: rest => ((a :: rest).take 64) :: toBlocksGo fuel (rest.drop 63)

/-- Split the padded message into 64-byte blocks (wsserver.h:378). -/
def toBlocks (l : List Nat) : List (List Nat) :=
  toBlocksGo l.length l

/-- Pack each 4 bytes of a block into one 32-bit word (wsserver.h:380-383). -/
def toWords : List Nat → List Nat
  | b0 :: b1 :: b2 :: b3 :: rest =>
      ((b0 <<< 24) ||| (b1 <<< 16) ||| (b2 <<< 8) ||| b3) :: toWords rest
  | _ => []

/-- Message-schedule extension (wsserver.h:384-387), keeping the computed
words in reverse order (head = latest): the next word is
`rotl 1 (w[j-3] ^ w[j-8] ^ w[j-14] ^ w[j-16])`, i.e. positions 2, 7, 13
and 15 from the head. -/
def extendW : Nat → List Nat → List Nat
  | 0, ws => ws
  | k + 1, ws =>
      extendW k
        (rotl 1 ((ws.getD 2 0) ^^^ (ws.getD 7 0) ^^^ (ws.getD 13 0) ^^^ (ws.getD 15 0)) :: ws)

/-- One SHA-1 round (wsserver.h:391-412) on state `(a, b, c, d, e)` with
round index `j` and schedule word `wj`.  `~b` on `uint32_t` is
`4294967295 - b` (flipping all 32 bits of `b < 2 ^ 32` borrows nothing). -/
def sha1Round (st : Nat × Nat × Nat × Nat × Nat) (j wj : Nat) :
    Nat × Nat × Nat × Nat × Nat :=
  let (a, b, c, d, e) := st
  let f :=
    if j < 20 then (b &&& c) ||| ((4294967295 - b) &&& d)
    else if j < 40 then b ^^^ c ^^^ d
    else if j < 60 then (b &&& c) ||| (b &&& d) ||| (c &&& d)
    else b ^^^ c ^^^ d
  let k :=
    if j < 20 then 1518500249
    else if j < 40 then 1859775393
    else if j < 60 then 2400959708
    else 3395469782
  let temp := (rotl 5 a + f + e + k + wj) % 4294967296
  (temp, a, rotl 30 b, c, d)

/-- Process one 64-byte block (wsserver.h:378-420). -/
def processBlock (h : Nat × Nat × Nat × Nat × Nat) (block : List Nat) :
    Nat × Nat × Nat × Nat × Nat :=
  let ws := (extendW 64 (toWords block).reverse).reverse
  let (a, b, c, d, e) := ws.enum.foldl (fun st p => sha1Round st p.1 p.2) h
  let (h0, h1, h2, h3, h4) := h
  ((h0 + a) % 4294967296, (h1 + b) % 4294967296, (h2 + c) % 4294967296,
   (h3 + d) % 4294967296, (h4 + e) % 4294967296)

/-- The private `sha1` of the handshake processor (wsserver.h:355-432):
20-byte digest, initial state `0x67452301, 0xEFCDAB89, 0x98BADCFE,
0x10325476, 0xC3D2E1F0`. -/
def sha1 (input : List Nat) : List Nat :=
  let r :=
    (toBlocks (sha1Pad input)).foldl processBlock
      (1732584193, 4023233417, 2562383102, 271733878, 3285377520)
  beBytes r.1 4 ++ beBytes r.2.1 4 ++ beBytes r.2.2.1 4 ++
    beBytes r.2.2.2.1 4 ++ beBytes r.2.2.2.2 4

/-- The Base64 alphabet (wsserver.h:435-436). -/
def b64Table : List Char :=
  "ABCDEFGHIJKLMNOPQRSTUVWXYZabcdefghijklmnopqrstuvwxyz0123456789+/".data

/-- The private `base64Encode` (wsserver.h:434-455): 3 input bytes per
4 output characters, `'='` padding for a 1- or 2-byte tail. -/
def base64Encode : List Nat → List Char
  | [] => []
  | [b0] =>
      let n := b0 <<< 16
      [b64Table.getD ((n >>> 18) &&& 63) 'A', b64Table.getD ((n >>> 12) &&& 63) 'A', '=', '=']
  | [b0, b1] =>
      let n := (b0 <<< 16) ||| (b1 <<< 8)
      [b64Table.getD ((n >>> 18) &&& 63) 'A', b64Table.getD ((n >>> 12) &&& 63) 'A',
        b64Table.getD ((n >>> 6) &&& 63) 'A', '=']
  | b0 :: b1 :: b2 :: rest =>
      let n := (b0 <<< 16) ||| (b1 <<< 8) ||| b2
      b64Table.getD ((n >>> 18) &&& 63) 'A' :: b64Table.getD ((n >>> 12) &&& 63) 'A' ::
        b64Table.getD ((n >>> 6) &&& 63) 'A' :: b64Table.getD (n &&& 63) 'A' :: base64Encode rest

/-- ASCII bytes of a `std::string`. -/
def strBytes (s : String) : List Nat := s.data.map Char.toNat

/-- The RFC 6455 GUID appended by `generateAcceptKey` (wsserver.h:346). -/
def wsGUID : String := "258EAFA5-E914-47DA-95CA-C5AB0DC85B11"

/-- `generateAcceptKey` (wsserver.h:344-353): Base64 of the SHA-1 digest of
the client key with the GUID appended. -/
def generateAcceptKey (clientKey : String) : String :=
  String.mk (base64Encode (sha1 (strBytes (clientKey ++ wsGUID))))

/-- One `clients_` entry as the registry model needs it: the id key and the
`connected` flag (wsserver.h:47-54, 558). -/
structure ClientM where
  id : Nat
  connected : Bool
deriving Repr, DecidableEq

/-- `clients_.find(clientId)` (wsserver.h:520, 193). -/
def lookupClient (cs : List ClientM) (id : Nat) : Option ClientM :=
  cs.find? (fun c => c.id == id)

/-- A completed write of frame bytes to one client's socket. -/
structure WriteEv where
  id : Nat
  bytes : List Nat
deriving Repr, DecidableEq

/-- Acquiring `clientsMutex_` while the calling thread already holds it:
`std::mutex` is non-recursive, so this never completes. -/
inductive LockErr where
  | deadlock
deriving Repr, DecidableEq

/-- `sendFrame` (wsserver.h:515-550): locks `clientsMutex_` (line 519) to
look up the socket; an unknown id returns `false`; otherwise the
`encodeFrame` bytes are written and the `::send(...) > 0` result is
returned, modelled by the `writeOk` oracle.  `held` records whether the
calling thread already holds `clientsMutex_`. -/
def sendFrameM (held : Bool) (cs : List ClientM) (writeOk : Bool) (id op : Nat)
    (data : List Nat) : Except LockErr (Bool × List WriteEv) :=
  if held then .error .deadlock
  else
    match lookupClient cs id with
    | none => .ok (false, [])
    | some _ => .ok (writeOk, [⟨id, encodeFrame op data⟩])

/-- `send` (wsserver.h:170-173): a TEXT `sendFrame` issued by the calling
thread, which holds no lock. -/
def sendM (cs : List ClientM) (writeOk : Bool) (id : Nat) (message : List Nat) :
    Except LockErr (Bool × List WriteEv) :=
  sendFrameM false cs writeOk id 1 message

/-- `broadcast` (wsserver.h:180-188): locks `clientsMutex_` (line 181) and,
still holding it, calls `sendFrame` for every client with
`connected = true`. -/
def broadcastM (cs : List ClientM) (writeOk : Bool) (message : List Nat) :
    Except LockErr (List WriteEv) :=
  List.foldlM
    (fun evs c =>
      if c.connected then do
        let r ← sendFrameM true cs writeOk c.id 1 message
        pure (evs ++ r.2)
      else pure evs)
    [] cs

/-- `closeClient` (wsserver.h:190-199): locks `clientsMutex_` (line 192); an
unknown id does nothing; otherwise `sendFrame` is called with the lock
still held, then `closesocket` and `connected = false` (the entry is not
erased there; wsserver.h:195-197). -/
def closeClientM (cs : List ClientM) (writeOk : Bool) (id : Nat) :
    Except LockErr (List ClientM × List WriteEv) :=
  match lookupClient cs id with
  | none => .ok (cs, [])
  | some _ => do
      let r ← sendFrameM true cs writeOk id 8 []
      .ok (cs.map (fun c => if c.id = id then { c with connected := false } else c), r.2)

/-- What one decoded frame causes in `clientLoop`: the frame bytes written in
reply (if any), whether `onMessage_` was invoked, and the `connected` flag
afterwards. -/
structure DispatchEff where
  sent : Option (List Nat)
  messaged : Bool
  connectedAfter : Bool
deriving Repr, DecidableEq

/-- The receive loop's switch on a decoded frame (wsserver.h:283-297):
TEXT (1) and BINARY (2) invoke `onMessage_`; PING (9) immediately answers
with `sendFrame(clientId, WSOpcode::PONG, msg.data)`, i.e. the
`encodeFrame 10 msg.data` bytes on this client's socket; CLOSE (8) clears
`connected`; every other opcode falls to `default` and is ignored. -/
def dispatchM (op : Nat) (data : List Nat) : DispatchEff :=
  if op = 1 ∨ op = 2 then ⟨none, true, true⟩
  else if op = 9 then ⟨some (encodeFrame 10 data), false, true⟩
  else if op = 8 then ⟨none, false, false⟩
  else ⟨none, false, true⟩

/-- The façade state `stop` touches: `running_`, the listening socket and
the registry (wsserver.h:552-558). -/
structure FacadeSt where
  running : Bool
  listenOpen : Bool
  clients : List ClientM
deriving Repr, DecidableEq

/-- `isRunning` (wsserver.h:207). -/
def isRunningM (s : FacadeSt) : Bool := s.running

/-- `stop` (wsserver.h:132-167): returns at once when `running_` is already
false; otherwise it clears the flag, closes the listening socket, closes
every client socket, clears the registry and joins all threads. -/
def stopM (s : FacadeSt) : FacadeSt :=
  if !s.running then s
  else { running := false, listenOpen := false, clients := [] }

/-- `needle` occurs contiguously in `hay`: `hay.find(needle) != npos`
(wsserver.h:323). -/
def startsList : List Char → List Char → Bool
  | [], _ => true
  | _ :: _, [] => false
  | a :: as, b :: bs => a == b && startsList as bs

/-- Substring search for `std::string::find` (wsserver.h:323). -/
def containsSub (needle : List Char) : List Char → Bool
  | [] => startsList needle []
  | c :: rest => startsList needle (c :: rest) || containsSub needle rest

/-- `performHandshake` (wsserver.h:313-342) reduced to its success
condition: the initial `recv` must return data (`recvOk`), the request
must contain the `Sec-WebSocket-Key` header, and writing the 101 response
must succeed (`writeOk`). -/
def performHandshakeM (recvOk : Bool) (request : List Char) (writeOk : Bool) : Bool :=
  recvOk && containsSub "Sec-WebSocket-Key: ".data request && writeOk

/-- The registry-relevant server state: the `clients_` entries as
`(id, connected)` pairs, the ids whose `performHandshake` has returned
true (a history variable recording handshake completion), and
`nextClientId_`. -/
structure SState where
  clients : List (Nat × Bool)
  handshaked : List Nat
  nextId : Nat
deriving Repr, DecidableEq

/-- `acceptLoop` registering a freshly accepted connection
(wsserver.h:229-244): inserted under the lock with `connected = false`,
before any handshake byte is exchanged; `nextClientId_++`. -/
def acceptStep (s : SState) : SState :=
  ⟨(s.nextId, false) :: s.clients, s.handshaked, s.nextId + 1⟩

/-- `clientLoop` on handshake failure (wsserver.h:263-268): the socket is
closed and the id erased from `clients_`. -/
def hsFailStep (s : SState) (id : Nat) : SState :=
  ⟨s.clients.filter (fun p => p.1 != id), s.handshaked, s.nextId⟩

/-- `clientLoop` on handshake success (wsserver.h:263-274): `connected`
becomes true and the id is recorded as handshaken. -/
def hsOkStep (s : SState) (id : Nat) : SState :=
  ⟨s.clients.map (fun p => if p.1 = id then (p.1, true) else p),
    id :: s.handshaked, s.nextId⟩

/-- `clientLoop` erasing the entry when the read loop ends
(wsserver.h:303-310). -/
def disconnectStep (s : SState) (id : Nat) : SState :=
  ⟨s.clients.filter (fun p => p.1 != id), s.handshaked, s.nextId⟩

/-- `stop` clearing the registry (wsserver.h:145-153). -/
def stopStep (s : SState) : SState :=
  ⟨[], s.handshaked, s.nextId⟩

/-- One interleaving step of the server's threads, restricted to the
registry operations (each constructor is one `clientsMutex_` critical
section, plus the adjacent `performHandshake` call for the two handshake
steps, which `clientLoop` runs exactly once per accepted id while its
entry still has `connected = false`). -/
inductive SStep : SState → SState → Prop
  | accept (s : SState) : SStep s (acceptStep s)
  | hsFail (s : SState) (id : Nat) (recvOk : Bool) (request : List Char) (writeOk : Bool) :
      (id, false) ∈ s.clients → id ∉ s.handshaked →
      performHandshakeM recvOk request writeOk = false →
      SStep s (hsFailStep s id)
  | hsOk (s : SState) (id : Nat) (recvOk : Bool) (request : List Char) (writeOk : Bool) :
      (id, false) ∈ s.clients → id ∉ s.handshaked →
      performHandshakeM recvOk request writeOk = true →
      SStep s (hsOkStep s id)
  | disconnect (s : SState) (id : Nat) : SStep s (disconnectStep s id)
  | stop (s : SState) : SStep s (stopStep s)

/-- States reachable from the freshly constructed server: `clients_` empty,
`nextClientId_ = 1` (wsserver.h:555, 558). -/
inductive Reach : SState → Prop
  | init : Reach ⟨[], [], 1⟩
  | step {s t : SState} : Reach s → SStep s t → Reach t

end Hub.Network

namespace Hub.Network

theorem and255_eq_mod (x : Nat) : x &&& 255 = x % 256 := by
  have h : (255 : Nat) = 2 ^ 8 - 1 := by norm_num
  rw [h, Nat.and_pow_two_sub_one_eq_mod]

theorem and127_eq_mod (x : Nat) : x &&& 127 = x % 128 := by
  have h : (127 : Nat) = 2 ^ 7 - 1 := by norm_num
  rw [h, Nat.and_pow_two_sub_one_eq_mod]

theorem and15_eq_mod (x : Nat) : x &&& 15 = x % 16 := by
  have h : (15 : Nat) = 2 ^ 4 - 1 := by norm_num
  rw [h, Nat.and_pow_two_sub_one_eq_mod]

theorem lor_two_pow_mul_add {k b : Nat} (a : Nat) (hb : b < 2 ^ k) :
    2 ^ k * a ||| b = 2 ^ k * a + b := by
  apply Nat.eq_of_testBit_eq
  intro j
  have hz : (2 ^ k * a).testBit j = if j < k then false else a.testBit (j - k) := by
    simpa using Nat.testBit_mul_pow_two_add a (Nat.two_pow_pos k) j
  rw [Nat.testBit_lor, hz, Nat.testBit_mul_pow_two_add a hb j]
  by_cases hj : j < k
  · simp [hj]
  · have hbj : b.testBit j = false :=
      Nat.testBit_lt_two_pow
        (lt_of_lt_of_le hb (Nat.pow_le_pow_right (by norm_num) (le_of_not_lt hj)))
    simp [hj, hbj]

theorem lor_128_eq_add {b : Nat} (hb : b < 128) : 128 ||| b = 128 + b := by
  have h := lor_two_pow_mul_add (k := 7) (b := b) 1 (by omega)
  norm_num at h
  exact h

theorem shiftLeft8_lor (a : Nat) {b : Nat} (hb : b < 256) : a <<< 8 ||| b = 256 * a + b := by
  have h := lor_two_pow_mul_add (k := 8) (b := b) a (by omega)
  rw [Nat.shiftLeft_eq, mul_comm]
  norm_num at h
  exact h

theorem and128_of_lt {x : Nat} (h : x < 128) : x &&& 128 = 0 := by
  have h128 : (128 : Nat) = 2 ^ 7 := by norm_num
  have hx : x < 2 ^ 7 := by
    have e : (2 : Nat) ^ 7 = 128 := by norm_num
    omega
  rw [h128, Nat.and_two_pow, Nat.testBit_lt_two_pow hx]
  simp

theorem and128_of_ge {x : Nat} (h1 : 128 ≤ x) (h2 : x < 256) : x &&& 128 = 128 := by
  have h128 : (128 : Nat) = 2 ^ 7 := by norm_num
  have ht : x.testBit 7 = true := by
    have e : (2 : Nat) ^ 7 = 128 := by norm_num
    rw [Nat.testBit_to_div_mod]
    simp only [decide_eq_true_eq]
    omega
  rw [h128, Nat.and_two_pow, ht]
  simp

theorem beBytes_length (n : Nat) : ∀ k, (beBytes n k).length = k := by
  intro k
  induction k with
  | zero => rfl
  | succ k ih => simp [beBytes, ih]

theorem foldl_lor_beBytes (n : Nat) : ∀ (k acc : Nat),
    (beBytes n k).foldl (fun a b => a <<< 8 ||| b) acc =
      acc * 2 ^ (8 * k) + n % 2 ^ (8 * k) := by
  intro k
  induction k with
  | zero => intro acc; simp [beBytes, Nat.mod_one]
  | succ k ih =>
    intro acc
    have hbyte : (n >>> (8 * k)) &&& 255 = n / 2 ^ (8 * k) % 256 := by
      rw [Nat.shiftRight_eq_div_pow, and255_eq_mod]
    have hlt : n / 2 ^ (8 * k) % 256 < 256 := Nat.mod_lt _ (by norm_num)
    have e : (2 : Nat) ^ (8 * (k + 1)) = 2 ^ (8 * k) * 256 := by
      rw [Nat.mul_succ, pow_add]; norm_num
    have hsplit : n % 2 ^ (8 * (k + 1)) =
        n % 2 ^ (8 * k) + 2 ^ (8 * k) * (n / 2 ^ (8 * k) % 256) := by
      rw [e, Nat.mod_mul]
    rw [beBytes, List.foldl_cons, hbyte, shiftLeft8_lor acc hlt, ih, hsplit, e]
    ring

theorem beVal_beBytes (n k : Nat) : beVal (beBytes n k) = n % 2 ^ (8 * k) := by
  have h := foldl_lor_beBytes n k 0
  simpa [beVal] using h

theorem takeExact_append (l rest : List Nat) :
    takeExact l.length (l ++ rest) = some (l, rest) := by
  simp [takeExact, List.take_left, List.drop_left]

theorem takeExact_of_le {n : Nat} {l : List Nat} (h : n ≤ l.length) :
    takeExact n l = some (l.take n, l.drop n) := by
  simp [takeExact, h]

theorem maskWith_length (key : List Nat) : ∀ (i : Nat) (l : List Nat),
    (maskWith key i l).length = l.length := by
  intro i l
  induction l generalizing i with
  | nil => rfl
  | cons b bs ih => simp [maskWith, ih]

theorem maskWith_maskWith (key : List Nat) : ∀ (i : Nat) (l : List Nat),
    maskWith key i (maskWith key i l) = l := by
  intro i l
  induction l generalizing i with
  | nil => rfl
  | cons b bs ih => simp [maskWith, Nat.xor_cancel_right, ih]

theorem readFrame_cons_small (b0 n : Nat) (rest : List Nat) (h : n ≤ 125)
    (hr : n ≤ rest.length) :
    readFrame (b0 :: n :: rest) = some (⟨b0 &&& 15, rest.take n⟩, rest.drop n) := by
  have hm : n &&& 128 = 0 := and128_of_lt (by omega)
  have h127 : n &&& 127 = n := by rw [and127_eq_mod]; exact Nat.mod_eq_of_lt (by omega)
  simp [readFrame, hm, h127, readLen, readKey, takeExact_of_le hr,
    (show n ≠ 126 by omega), (show n ≠ 127 by omega)]

theorem readFrame_cons_ext16 (b0 e0 e1 : Nat) (rest : List Nat)
    (hr : e0 <<< 8 ||| e1 ≤ rest.length) :
    readFrame (b0 :: 126 :: e0 :: e1 :: rest) =
      some (⟨b0 &&& 15, rest.take (e0 <<< 8 ||| e1)⟩, rest.drop (e0 <<< 8 ||| e1)) := by
  have hb : beVal [e0, e1] = e0 <<< 8 ||| e1 := by simp [beVal]
  have ht2 : takeExact 2 (e0 :: e1 :: rest) = some ([e0, e1], rest) := by
    simp [takeExact]
  simp [readFrame, readLen, readKey, hb, ht2, takeExact_of_le hr,
    (show (126 : Nat) &&& 128 = 0 by decide), (show (126 : Nat) &&& 127 = 126 by decide)]

theorem readFrame_cons_ext64 (b0 : Nat) (ext rest : List Nat) (h8 : ext.length = 8)
    (hr : beVal ext ≤ rest.length) :
    readFrame (b0 :: 127 :: (ext ++ rest)) =
      some (⟨b0 &&& 15, rest.take (beVal ext)⟩, rest.drop (beVal ext)) := by
  have ht : takeExact 8 (ext ++ rest) = some (ext, rest) := by
    rw [← h8]; exact takeExact_append ext rest
  simp [readFrame, readLen, readKey, ht, takeExact_of_le hr,
    (show (127 : Nat) &&& 128 = 0 by decide), (show (127 : Nat) &&& 127 = 127 by decide)]

theorem readFrame_cons_small_masked (b0 n : Nat) (key rest : List Nat) (h : n ≤ 125)
    (hk : key.length = 4) (hr : n ≤ rest.length) :
    readFrame (b0 :: (128 ||| n) :: (key ++ rest)) =
      some (⟨b0 &&& 15, maskWith key 0 (rest.take n)⟩, rest.drop n) := by
  have hadd : 128 ||| n = 128 + n := lor_128_eq_add (by omega)
  have hm : (128 + n) &&& 128 = 128 := and128_of_ge (by omega) (by omega)
  have h127 : (128 + n) &&& 127 = n := by rw [and127_eq_mod]; omega
  have hkey : takeExact 4 (key ++ rest) = some (key, rest) := by
    rw [← hk]; exact takeExact_append key rest
  simp [readFrame, hadd, hm, h127, readLen, readKey, hkey, takeExact_of_le hr,
    (show n ≠ 126 by omega), (show n ≠ 127 by omega)]

theorem readFrame_cons_ext16_masked (b0 e0 e1 : Nat) (key rest : List Nat)
    (hk : key.length = 4) (hr : e0 <<< 8 ||| e1 ≤ rest.length) :
    readFrame (b0 :: (128 ||| 126) :: e0 :: e1 :: (key ++ rest)) =
      some (⟨b0 &&& 15, maskWith key 0 (rest.take (e0 <<< 8 ||| e1))⟩,
        rest.drop (e0 <<< 8 ||| e1)) := by
  have hb : beVal [e0, e1] = e0 <<< 8 ||| e1 := by simp [beVal]
  have ht2 : takeExact 2 (e0 :: e1 :: (key ++ rest)) = some ([e0, e1], key ++ rest) := by
    simp [takeExact]
  have hkey : takeExact 4 (key ++ rest) = some (key, rest) := by
    rw [← hk]; exact takeExact_append key rest
  simp [readFrame, readLen, readKey, hb, ht2, hkey, takeExact_of_le hr,
    (show (254 : Nat) &&& 128 = 128 by decide), (show (254 : Nat) &&& 127 = 126 by decide)]

theorem readFrame_cons_ext64_masked (b0 : Nat) (ext key rest : List Nat) (h8 : ext.length = 8)
    (hk : key.length = 4) (hr : beVal ext ≤ rest.length) :
    readFrame (b0 :: (128 ||| 127) :: (ext ++ (key ++ rest))) =
      some (⟨b0 &&& 15, maskWith key 0 (rest.take (beVal ext))⟩, rest.drop (beVal ext)) := by
  have ht : takeExact 8 (ext ++ (key ++ rest)) = some (ext, key ++ rest) := by
    rw [← h8]; exact takeExact_append ext (key ++ rest)
  have hkey : takeExact 4 (key ++ rest) = some (key, rest) := by
    rw [← hk]; exact takeExact_append key rest
  simp [readFrame, readLen, readKey, ht, hkey, takeExact_of_le hr,
    (show (255 : Nat) &&& 128 = 128 by decide), (show (255 : Nat) &&& 127 = 127 by decide)]

theorem opcode_decode {op : Nat} (hop : op < 16) : (128 ||| op) &&& 15 = op := by
  rw [lor_128_eq_add (by omega), and15_eq_mod]
  omega

theorem ext16_val {n : Nat} (h2 : n ≤ 65535) :
    ((n >>> 8) &&& 255) <<< 8 ||| (n &&& 255) = n := by
  rw [Nat.shiftRight_eq_div_pow, and255_eq_mod, and255_eq_mod,
    shiftLeft8_lor _ (Nat.mod_lt _ (by norm_num))]
  norm_num
  omega

theorem readFrame_encodeFrame (op : Nat) (data extra : List Nat) (hop : op < 16)
    (hlen : data.length < 2 ^ 64) :
    readFrame (encodeFrame op data ++ extra) = some (⟨op, data⟩, extra) := by
  have hr : data.length ≤ (data ++ extra).length := by
    rw [List.length_append]; omega
  by_cases h1 : data.length ≤ 125
  · have he : encodeFrame op data ++ extra =
        (128 ||| op) :: data.length :: (data ++ extra) := by
      simp [encodeFrame, lenField, h1]
    rw [he, readFrame_cons_small _ _ _ h1 hr, opcode_decode hop,
      List.take_left, List.drop_left]
  · by_cases h2 : data.length ≤ 65535
    · have he : encodeFrame op data ++ extra =
          (128 ||| op) :: 126 :: ((data.length >>> 8) &&& 255) :: (data.length &&& 255) ::
            (data ++ extra) := by
        simp [encodeFrame, lenField, h1, h2]
      rw [he, readFrame_cons_ext16 _ _ _ _ (by rw [ext16_val h2]; exact hr),
        ext16_val h2, opcode_decode hop, List.take_left, List.drop_left]
    · have hval : beVal (beBytes data.length 8) = data.length := by
        rw [beVal_beBytes]
        refine Nat.mod_eq_of_lt ?_
        have e : (2 : Nat) ^ (8 * 8) = 2 ^ 64 := by norm_num
        omega
      have he : encodeFrame op data ++ extra =
          (128 ||| op) :: 127 :: (beBytes data.length 8 ++ (data ++ extra)) := by
        simp [encodeFrame, lenField, h1, h2]
      rw [he, readFrame_cons_ext64 _ _ _ (beBytes_length data.length 8)
        (by rw [hval]; exact hr), hval, opcode_decode hop, List.take_left, List.drop_left]

theorem readFrame_encodeFrameMasked (op : Nat) (data key extra : List Nat) (hop : op < 16)
    (hlen : data.length < 2 ^ 64) (hk : key.length = 4) :
    readFrame (encodeFrameMasked op data key ++ extra) = some (⟨op, data⟩, extra) := by
  have hml : (maskWith key 0 data).length = data.length := maskWith_length key 0 data
  have htake : (maskWith key 0 data ++ extra).take data.length = maskWith key 0 data := by
    rw [← hml, List.take_left]
  have hdrop : (maskWith key 0 data ++ extra).drop data.length = extra := by
    rw [← hml, List.drop_left]
  have hr : data.length ≤ (maskWith key 0 data ++ extra).length := by
    rw [List.length_append, hml]; omega
  by_cases h1 : data.length ≤ 125
  · have he : encodeFrameMasked op data key ++ extra =
        (128 ||| op) :: (128 ||| data.length) :: (key ++ (maskWith key 0 data ++ extra)) := by
      simp [encodeFrameMasked, h1]
    rw [he, readFrame_cons_small_masked _ _ _ _ h1 hk hr, htake, hdrop,
      maskWith_maskWith, opcode_decode hop]
  · by_cases h2 : data.length ≤ 65535
    · have he : encodeFrameMasked op data key ++ extra =
          (128 ||| op) :: (128 ||| 126) :: ((data.length >>> 8) &&& 255) ::
            (data.length &&& 255) :: (key ++ (maskWith key 0 data ++ extra)) := by
        simp [encodeFrameMasked, h1, h2]
      rw [he, readFrame_cons_ext16_masked _ _ _ _ _ hk (by rw [ext16_val h2]; exact hr),
        ext16_val h2, htake, hdrop, maskWith_maskWith, opcode_decode hop]
    · have hval : beVal (beBytes data.length 8) = data.length := by
        rw [beVal_beBytes]
        refine Nat.mod_eq_of_lt ?_
        have e : (2 : Nat) ^ (8 * 8) = 2 ^ 64 := by norm_num
        omega
      have he : encodeFrameMasked op data key ++ extra =
          (128 ||| op) :: (128 ||| 127) ::
            (beBytes data.length 8 ++ (key ++ (maskWith key 0 data ++ extra))) := by
        simp [encodeFrameMasked, h1, h2]
      rw [he, readFrame_cons_ext64_masked _ _ _ _ (beBytes_length data.length 8) hk
        (by rw [hval]; exact hr), hval, htake, hdrop, maskWith_maskWith, opcode_decode hop]

end Hub.Network

namespace Hub.Network

/-- C1: Frame codec round-trip.  Decoding the server-side encoding
(`sendFrame`'s frame construction: FIN set, unmasked, tiered length) yields
the same opcode and payload, and decoding the client-side masked encoding
(MASK bit set, payload XORed with a 4-byte key) yields the original
unmasked payload.  Proven for every 4-bit opcode (so in particular TEXT,
BINARY, CLOSE, PING, PONG) and every payload length below `2 ^ 31` (so in
particular 0, 1, 125, 126, 65535, 65536 and 200000). -/
theorem frame_codec_roundtrip (op : Nat) (data key : List Nat) (hop : op < 16)
    (hlen : data.length < 2 ^ 31) (hk : key.length = 4) :
    readFrame (encodeFrame op data) = some (⟨op, data⟩, []) ∧
    readFrame (encodeFrameMasked op data key) = some (⟨op, data⟩, []) := by
  have h64 : data.length < 2 ^ 64 := by
    have e : (2 : Nat) ^ 31 < 2 ^ 64 := by norm_num
    omega
  constructor
  · simpa using readFrame_encodeFrame op data [] hop h64
  · simpa using readFrame_encodeFrameMasked op data key [] hop h64 hk

/-- Witness for C1: the round-trip evaluated on a PING frame with payload
`[1, 2, 3]` and masking key `[7, 8, 250, 3]`. -/
theorem frame_codec_roundtrip_witness :
    readFrame (encodeFrame 9 [1, 2, 3]) = some (⟨9, [1, 2, 3]⟩, []) ∧
    readFrame (encodeFrameMasked 9 [1, 2, 3] [7, 8, 250, 3]) = some (⟨9, [1, 2, 3]⟩, []) :=
  frame_codec_roundtrip 9 [1, 2, 3] [7, 8, 250, 3] (by norm_num) (by norm_num) (by decide)

set_option maxRecDepth 100000 in
/-- C2: Handshake accept-key determinism: on the RFC 6455 example client key,
`generateAcceptKey` (GUID append, private SHA-1, private Base64) returns
exactly the RFC's expected value. -/
theorem handshake_accept_key_rfc_example :
    generateAcceptKey "dGhlIHNhbXBsZSBub25jZQ==" = "s3pPLMBiTxaQ9kYGzzhZRbK+xOo=" := by
  decide

/-- C3 as stated is false on the code: `acceptLoop` inserts the connection
into `clients_` (wsserver.h:241-244) before `clientLoop` has run the
handshake, so a reachable state (one `accept` step from the initial state)
has a registered connection whose handshake never completed. -/
theorem registration_only_after_handshake_counterexample :
    ¬ (∀ s : SState, Reach s → ∀ p ∈ s.clients, p.1 ∈ s.handshaked) := by
  intro hcl
  have hreach : Reach ⟨[(1, false)], [], 2⟩ := by
    have h1 := Reach.step Reach.init (SStep.accept ⟨[], [], 1⟩)
    simpa [acceptStep] using h1
  have := hcl _ hreach (1, false) (by simp)
  simp at this

/-- C3 amended: a connection is inserted into the registry at accept time
with `connected = false`, before its handshake; in every reachable state a
connection marked `connected = true` has completed its handshake
successfully; and when the handshake fails (for example because the request
lacks `Sec-WebSocket-Key`) the connection's id is erased from the
registry. -/
theorem registration_after_handshake_amended :
    (∀ s : SState, Reach s → ∀ id : Nat, (id, true) ∈ s.clients → id ∈ s.handshaked) ∧
    (∀ (s : SState) (id : Nat) (b : Bool), (id, b) ∉ (hsFailStep s id).clients) ∧
    (∀ s : SState, (s.nextId, false) ∈ (acceptStep s).clients) := by
  refine ⟨?_, ?_, ?_⟩
  · intro s hs
    induction hs with
    | init => simp
    | step hr hstep ih =>
      intro id hmem
      cases hstep with
      | accept =>
        simp only [acceptStep, List.mem_cons] at hmem
        rcases hmem with h | h
        · simp at h
        · exact ih id h
      | hsFail id2 recvOk request writeOk hmem2 hns hfail =>
        simp only [hsFailStep] at hmem
        exact ih id (List.mem_of_mem_filter hmem)
      | hsOk id2 recvOk request writeOk hmem2 hns hok =>
        simp only [hsOkStep, List.mem_map] at hmem
        obtain ⟨p, hp, he⟩ := hmem
        by_cases hid : p.1 = id2
        · rw [if_pos hid] at he
          have : id = id2 := by
            have := congrArg Prod.fst he
            simp at this
            omega
          simp [this, hsOkStep]
        · rw [if_neg hid] at he
          subst he
          exact List.mem_cons_of_mem _ (ih id hp)
      | disconnect id2 =>
        simp only [disconnectStep] at hmem
        exact ih id (List.mem_of_mem_filter hmem)
      | stop =>
        simp [stopStep] at hmem
  · intro s id b
    simp [hsFailStep, List.mem_filter]
  · intro s
    simp [acceptStep]

/-- Witness for C3's amended theorem: after accept + successful handshake of
id 1, the invariant instantiates concretely; a handshake-failure erasure and
an accept insertion are also evaluated. -/
theorem registration_after_handshake_amended_witness :
    (1 : Nat) ∈ (hsOkStep (acceptStep ⟨[], [], 1⟩) 1).handshaked ∧
    (1, true) ∉ (hsFailStep (hsOkStep (acceptStep ⟨[], [], 1⟩) 1) 1).clients ∧
    ((acceptStep ⟨[], [], 1⟩).nextId, false) ∈ (acceptStep (acceptStep ⟨[], [], 1⟩)).clients :=
  ⟨registration_after_handshake_amended.1 (hsOkStep (acceptStep ⟨[], [], 1⟩) 1)
      (Reach.step (Reach.step Reach.init (SStep.accept ⟨[], [], 1⟩))
        (SStep.hsOk (acceptStep ⟨[], [], 1⟩) 1 true "Sec-WebSocket-Key: x".data true
          (by decide) (by decide) (by decide)))
      1 (by decide),
    registration_after_handshake_amended.2.1 (hsOkStep (acceptStep ⟨[], [], 1⟩) 1) 1 true,
    registration_after_handshake_amended.2.2 (acceptStep ⟨[], [], 1⟩)⟩

/-- C4 fails on the code: `broadcast` takes `clientsMutex_` (wsserver.h:181)
and, still holding it, calls `sendFrame`, which locks the same
non-recursive mutex again (wsserver.h:519) — with one connected client the
broadcast self-deadlocks instead of delivering the TEXT frame.  With no
connected client the loop body never runs and broadcast returns without
writes. -/
theorem broadcast_deadlocks :
    broadcastM [⟨1, true⟩] true (strBytes "x") = .error .deadlock ∧
    broadcastM [] true (strBytes "x") = .ok [] :=
  ⟨rfl, rfl⟩

/-- C5: `send` result semantics: it never escapes with an error, writes the
`encodeFrame`d TEXT frame exactly when the id is in the registry, and
returns `true` exactly when the id is known and the socket write
succeeded. -/
theorem send_result_semantics (cs : List ClientM) (writeOk : Bool) (id : Nat)
    (message : List Nat) :
    sendM cs writeOk id message =
      .ok ((lookupClient cs id).isSome && writeOk,
        if (lookupClient cs id).isSome then [⟨id, encodeFrame 1 message⟩] else []) := by
  unfold sendM sendFrameM
  cases h : lookupClient cs id <;> simp [h]

/-- C6 fails on the code: `closeClient` holds `clientsMutex_`
(wsserver.h:192) when it calls `sendFrame`, which locks the same
non-recursive mutex again (wsserver.h:519), so closing a registered client
self-deadlocks; moreover the code only sets `connected = false` and never
erases the entry there.  An unknown id is a no-op, as claimed. -/
theorem closeClient_deadlocks :
    closeClientM [⟨1, true⟩] true 1 = .error .deadlock ∧
    closeClientM [⟨1, true⟩] true 2 = .ok ([⟨1, true⟩], []) :=
  ⟨rfl, rfl⟩

/-- C7: Length-tier boundary selection: the encoder emits the 7-bit form
exactly for lengths up to 125, the 16-bit form for 126..65535, the 64-bit
form from 65536 on, and the decoder inverts the tiering. -/
theorem length_tier_boundaries :
    (∀ (op : Nat) (data : List Nat), data.length ≤ 125 →
      encodeFrame op data = (128 ||| op) :: data.length :: data) ∧
    (∀ (op : Nat) (data : List Nat), 126 ≤ data.length → data.length ≤ 65535 →
      encodeFrame op data =
        (128 ||| op) :: 126 :: ((data.length >>> 8) &&& 255) ::
          (data.length &&& 255) :: data) ∧
    (∀ (op : Nat) (data : List Nat), 65536 ≤ data.length →
      encodeFrame op data = (128 ||| op) :: 127 :: (beBytes data.length 8 ++ data)) ∧
    (∀ (op : Nat) (data : List Nat), op < 16 → data.length < 2 ^ 31 →
      readFrame (encodeFrame op data) = some (⟨op, data⟩, [])) := by
  refine ⟨?_, ?_, ?_, ?_⟩
  · intro op data h1
    simp [encodeFrame, lenField, h1]
  · intro op data h1 h2
    simp [encodeFrame, lenField, (show ¬ data.length ≤ 125 by omega), h2]
  · intro op data h1
    simp [encodeFrame, lenField, (show ¬ data.length ≤ 125 by omega),
      (show ¬ data.length ≤ 65535 by omega)]
  · intro op data hop hlen
    have h64 : data.length < 2 ^ 64 := by
      have e : (2 : Nat) ^ 31 < 2 ^ 64 := by norm_num
      omega
    simpa using readFrame_encodeFrame op data [] hop h64

/-- Witness for C7: the boundary lengths 125, 126 and 65536 each select
their tier, and a decode round-trip at a concrete frame. -/
theorem length_tier_boundaries_witness :
    encodeFrame 1 (List.replicate 125 7) =
      (128 ||| 1) :: (List.replicate 125 7).length :: List.replicate 125 7 ∧
    encodeFrame 2 (List.replicate 126 7) =
      (128 ||| 2) :: 126 :: (((List.replicate 126 7).length >>> 8) &&& 255) ::
        ((List.replicate 126 7).length &&& 255) :: List.replicate 126 7 ∧
    encodeFrame 9 (List.replicate 65536 7) =
      (128 ||| 9) :: 127 ::
        (beBytes (List.replicate 65536 7).length 8 ++ List.replicate 65536 7) ∧
    readFrame (encodeFrame 8 [5]) = some (⟨8, [5]⟩, []) :=
  ⟨length_tier_boundaries.1 1 (List.replicate 125 7) (by rw [List.length_replicate]),
    length_tier_boundaries.2.1 2 (List.replicate 126 7) (by rw [List.length_replicate])
      (by rw [List.length_replicate]; omega),
    length_tier_boundaries.2.2.1 9 (List.replicate 65536 7) (by rw [List.length_replicate]),
    length_tier_boundaries.2.2.2 8 [5] (by norm_num) (by norm_num)⟩

/-- C8: Idempotent shutdown: `stop` always leaves `isRunning` false, a
second `stop` changes nothing, and `stop` on a non-running server (in
particular the freshly constructed one) is a no-op. -/
theorem stop_idempotent (s : FacadeSt) :
    isRunningM (stopM s) = false ∧
    stopM (stopM s) = stopM s ∧
    (isRunningM s = false → stopM s = s) := by
  unfold stopM isRunningM
  by_cases h : s.running <;> simp [h]

/-- Witness for C8: `stop` on the never-started server state. -/
theorem stop_idempotent_witness :
    stopM ⟨false, false, []⟩ = ⟨false, false, []⟩ :=
  (stop_idempotent ⟨false, false, []⟩).2.2 rfl

/-- C9: Automatic PONG keepalive: a decoded PING makes the receive loop
write a PONG frame with the identical payload and does not invoke
`onMessage_`; `onMessage_` fires exactly for TEXT and BINARY frames. -/
theorem ping_pong_keepalive (data : List Nat) :
    dispatchM 9 data = ⟨some (encodeFrame 10 data), false, true⟩ ∧
    (∀ op : Nat, (dispatchM op data).messaged = true ↔ op = 1 ∨ op = 2) := by
  constructor
  · simp [dispatchM]
  · intro op
    unfold dispatchM
    by_cases h1 : op = 1 ∨ op = 2
    · simp [h1]
    · by_cases h9 : op = 9 <;> by_cases h8 : op = 8 <;> simp [h1, h9, h8]

/-- Witness for C9: the PING dispatch on the spec's `"abc"` payload. -/
theorem ping_pong_keepalive_witness :
    dispatchM 9 [97, 98, 99] = ⟨some (encodeFrame 10 [97, 98, 99]), false, true⟩ :=
  (ping_pong_keepalive [97, 98, 99]).1

/-- C10: Unmasked client frames are accepted: for every stream whose MASK
bit (bit 7 of byte 2) is clear — base length at most 125, or the 126 or
127 extended forms — `readFrame` succeeds and returns the payload bytes of
the stream unchanged (no XOR applied).  The 64-bit tier is stated only for
declared lengths below `2 ^ 31`, the range on which the embedding is
faithful to the C++ (`recv` receives `static_cast<int>(payloadLen)`,
wsserver.h:497-499, so the real code fails on larger declared lengths). -/
theorem unmasked_frames_accepted :
    (∀ (b0 b1 : Nat) (rest : List Nat), b1 ≤ 125 → b1 ≤ rest.length →
      readFrame (b0 :: b1 :: rest) = some (⟨b0 &&& 15, rest.take b1⟩, rest.drop b1)) ∧
    (∀ (b0 e0 e1 : Nat) (rest : List Nat), e0 <<< 8 ||| e1 ≤ rest.length →
      readFrame (b0 :: 126 :: e0 :: e1 :: rest) =
        some (⟨b0 &&& 15, rest.take (e0 <<< 8 ||| e1)⟩, rest.drop (e0 <<< 8 ||| e1))) ∧
    (∀ (b0 : Nat) (ext rest : List Nat), ext.length = 8 → beVal ext < 2 ^ 31 →
      beVal ext ≤ rest.length →
      readFrame (b0 :: 127 :: (ext ++ rest)) =
        some (⟨b0 &&& 15, rest.take (beVal ext)⟩, rest.drop (beVal ext))) :=
  ⟨fun b0 b1 rest h hr => readFrame_cons_small b0 b1 rest h hr,
    fun b0 e0 e1 rest hr => readFrame_cons_ext16 b0 e0 e1 rest hr,
    fun b0 ext rest h8 _hbound hr => readFrame_cons_ext64 b0 ext rest h8 hr⟩

/-- Witness for C10: one unmasked frame per length tier decodes with its
payload untouched. -/
theorem unmasked_frames_accepted_witness :
    readFrame [129, 1, 7] = some (⟨129 &&& 15, [7].take 1⟩, [7].drop 1) ∧
    readFrame [130, 126, 0, 1, 9] =
      some (⟨130 &&& 15, [9].take ((0 : Nat) <<< 8 ||| 1)⟩,
        [9].drop ((0 : Nat) <<< 8 ||| 1)) ∧
    readFrame (137 :: 127 :: ([0, 0, 0, 0, 0, 0, 0, 1] ++ [4])) =
      some (⟨137 &&& 15, [4].take (beVal [0, 0, 0, 0, 0, 0, 0, 1])⟩,
        [4].drop (beVal [0, 0, 0, 0, 0, 0, 0, 1])) :=
  ⟨unmasked_frames_accepted.1 129 1 [7] (by norm_num) (by simp),
    unmasked_frames_accepted.2.1 130 0 1 [9] (by decide),
    unmasked_frames_accepted.2.2 137 [0, 0, 0, 0, 0, 0, 0, 1] [4] (by decide) (by decide)
      (by decide)⟩

end Hub.Network
